import Mathlib

/-!
Verification of the Shukhov tower geometry core.

The repository computes the geometry of a hyperboloid lattice tower.  The
numeric core consists of the ruled-surface evaluator (`getStrutRadiusAtHeight`
and `calculateWaistGeometry` in `src/tower.ts`) and the section partitioner of
the multi-section tower builder (`createTower`): triangular-number weighted
section heights, alternating per-section twist sign, and ring emission with
bottom-ring deduplication.  JavaScript numbers are modelled as real numbers;
the guards (`Math.max(0, ·)`, the near-zero-denominator fallback, the `[0,1]`
clamp) are carried over literally.
-/

/-- Mirrors the TS interface `WaistGeometry` of `src/tower.ts`. -/
structure WaistGeometry where
  waistRadius : ℝ
  waistPosition : ℝ

/-- Embedding of `getStrutRadiusAtHeight(normalizedHeight, baseRadius, topRadius,
twistAngleRadians)` from `src/tower.ts`:
`r(t) = sqrt(max(0, (1-t)²·a² + t²·b² + 2(1-t)·t·a·b·cos φ))`. -/
noncomputable def getStrutRadiusAtHeight
    (normalizedHeight baseRadius topRadius twistAngleRadians : ℝ) : ℝ :=
  let a := baseRadius
  let b := topRadius
  let t := normalizedHeight
  let cosPhi := Real.cos twistAngleRadians
  let rSquared :=
    (1 - t) * (1 - t) * a * a + t * t * b * b + 2 * (1 - t) * t * a * b * cosPhi
  Real.sqrt (max 0 rSquared)

/-- Embedding of `calculateWaistGeometry(baseRadius, topRadius, twistAngleRadians)`
from `src/tower.ts`, including the near-zero-denominator fallback and the
clamp of `tWaist` to `[0, 1]` via `Math.max(0, Math.min(1, tWaist))`. -/
noncomputable def calculateWaistGeometry
    (baseRadius topRadius twistAngleRadians : ℝ) : WaistGeometry :=
  let a := baseRadius
  let b := topRadius
  let cosPhi := Real.cos twistAngleRadians
  let denominator := a * a + b * b + 2 * a * b * cosPhi
  if |denominator| < 0.0001 then
    { waistPosition := 0.5, waistRadius := (a + b) / 2 }
  else
    let tWaist := (a * a + a * b * cosPhi) / denominator
    let t := max 0 (min 1 tWaist)
    let rSquared :=
      (1 - t) * (1 - t) * a * a + t * t * b * b + 2 * (1 - t) * t * a * b * cosPhi
    { waistPosition := t, waistRadius := Real.sqrt (max 0 rSquared) }

/-- Signed per-section twist of the multi-section `createTower`:
`section % 2 === 0 ? twistRadians : -twistRadians`. -/
def sectionTwist (sectionIndex : ℕ) (twistRadians : ℝ) : ℝ :=
  if sectionIndex % 2 = 0 then twistRadians else -twistRadians

/-- Per-section weight of the weighted partitioner in the multi-section
`createTower`: `weights[i] = sectionCount - i`. -/
def sectionWeight (sectionCount i : ℕ) : ℕ := sectionCount - i

/-- Running total of the first `k` weights (the `totalWeight += weight` loop
after `k` iterations). -/
def totalWeightAux (sectionCount : ℕ) : ℕ → ℕ
  | 0 => 0
  | k + 1 => totalWeightAux sectionCount k + sectionWeight sectionCount k

/-- `totalWeight` after the full loop over all `sectionCount` weights. -/
def totalWeight (sectionCount : ℕ) : ℕ := totalWeightAux sectionCount sectionCount

/-- `cumulativeHeight` after `k` iterations of the boundary loop, i.e.
`sectionBoundaries[k]`; each step adds `(weights[i] / totalWeight) * height`. -/
noncomputable def cumulativeHeight (height : ℝ) (sectionCount : ℕ) : ℕ → ℝ
  | 0 => 0
  | k + 1 => cumulativeHeight height sectionCount k +
      (sectionWeight sectionCount k : ℝ) / (totalWeight sectionCount : ℝ) * height

/-- Bottom radius of section `i`: linear interpolation of the tower taper at the
lower boundary, `baseRadius + (topRadius - baseRadius) * (boundary / height)`. -/
noncomputable def sectionBottomRadius
    (baseRadius topRadius height : ℝ) (sectionCount i : ℕ) : ℝ :=
  baseRadius + (topRadius - baseRadius) *
    (cumulativeHeight height sectionCount i / height)

/-- Top radius of section `i`: linear interpolation at the upper boundary. -/
noncomputable def sectionTopRadius
    (baseRadius topRadius height : ℝ) (sectionCount i : ℕ) : ℝ :=
  baseRadius + (topRadius - baseRadius) *
    (cumulativeHeight height sectionCount (i + 1) / height)

/-- Ring indices emitted for one section by the multi-section `createTower`:
the loop runs `i = 0 .. ringCount` and skips `i = 0` whenever `section > 0`
(the `if (section > 0 && i === 0) continue;` deduplication). -/
def sectionRingIndices (sectionIndex ringCount : ℕ) : List ℕ :=
  (List.range (ringCount + 1)).filter
    (fun i => !(decide (0 < sectionIndex) && decide (i = 0)))

/-- All `(section, ring)` index pairs emitted by the multi-section
`createTower` when `showRings` is set (otherwise nothing is emitted). -/
def towerRingIndices (showRings : Bool) (sectionCount ringCount : ℕ) : List (ℕ × ℕ) :=
  if showRings then
    (List.range sectionCount).flatMap
      (fun s => (sectionRingIndices s ringCount).map (fun i => (s, i)))
  else []

/-- The cosine of the concrete twist angle 50 degrees in radians. -/
noncomputable def cos50 : ℝ := Real.cos (50 * Real.pi / 180)

/-- The unclamped waist parameter computed by `calculateWaistGeometry` for
`a = 60`, `b = 5`, `φ = 50°`. -/
noncomputable def tW50 : ℝ :=
  (60 * 60 + 60 * 5 * cos50) / (60 * 60 + 5 * 5 + 2 * 60 * 5 * cos50)

/-- The squared waist radius computed by `calculateWaistGeometry` for
`a = 60`, `b = 5`, `φ = 50°`. -/
noncomputable def rSq50 : ℝ :=
  (1 - tW50) * (1 - tW50) * 60 * 60 + tW50 * tW50 * 5 * 5 +
    2 * (1 - tW50) * tW50 * 60 * 5 * cos50

/-- Claim C1: for nonnegative radii, whenever the waist denominator
`a² + b² + 2·a·b·cos φ` has magnitude at least `1e-4`, `calculateWaistGeometry`
returns the closed-form critical point `(a² + a·b·cos φ)/(a² + b² + 2·a·b·cos φ)`
clamped to `[0,1]` as `waistPosition`, and the strut radius evaluated at that
position as `waistRadius`. -/
theorem claim_C1 (a b phi : ℝ) (ha : 0 ≤ a) (hb : 0 ≤ b)
    (hd : 0.0001 ≤ |a * a + b * b + 2 * a * b * Real.cos phi|) :
    (calculateWaistGeometry a b phi).waistPosition =
      max 0 (min 1
        ((a * a + a * b * Real.cos phi) / (a * a + b * b + 2 * a * b * Real.cos phi))) ∧
    (calculateWaistGeometry a b phi).waistRadius =
      getStrutRadiusAtHeight ((calculateWaistGeometry a b phi).waistPosition) a b phi := by
  have hno : ¬ |a * a + b * b + 2 * a * b * Real.cos phi| < 0.0001 := not_lt.mpr hd
  constructor
  · simp only [calculateWaistGeometry, if_neg hno]
  · simp only [calculateWaistGeometry, getStrutRadiusAtHeight, if_neg hno]

/-- Witness for C1 at `a = 1`, `b = 0`, `φ = 0` (denominator `1`). -/
theorem claim_C1_witness :
    (calculateWaistGeometry 1 0 0).waistPosition =
      max 0 (min 1
        ((1 * 1 + 1 * 0 * Real.cos 0) / (1 * 1 + 0 * 0 + 2 * 1 * 0 * Real.cos 0))) ∧
    (calculateWaistGeometry 1 0 0).waistRadius =
      getStrutRadiusAtHeight ((calculateWaistGeometry 1 0 0).waistPosition) 1 0 0 :=
  claim_C1 1 0 0 (by norm_num) le_rfl (by rw [Real.cos_zero]; norm_num)

/-- Claim C3: whenever the waist denominator has magnitude below the tolerance
`1e-4`, `calculateWaistGeometry` returns the fallback
`{waistPosition := 0.5, waistRadius := (a+b)/2}` without dividing. -/
theorem claim_C3 (a b phi : ℝ)
    (hd : |a * a + b * b + 2 * a * b * Real.cos phi| < 0.0001) :
    calculateWaistGeometry a b phi =
      { waistRadius := (a + b) / 2, waistPosition := 0.5 } := by
  simp only [calculateWaistGeometry, if_pos hd]

/-- Witness for C3 at `a = 10`, `b = 10`, `φ = π` (denominator exactly `0`);
the fallback yields `{waistPosition := 0.5, waistRadius := 10}`. -/
theorem claim_C3_witness :
    calculateWaistGeometry 10 10 Real.pi =
      { waistRadius := 10, waistPosition := 0.5 } := by
  have h := claim_C3 10 10 Real.pi (by rw [Real.cos_pi]; norm_num)
  rw [h]
  norm_num

/-- Claim C6: section `i` carries signed twist `+twistRadians` when `i` is even
and `-twistRadians` when `i` is odd. -/
theorem claim_C6 (i : ℕ) (t : ℝ) :
    (i % 2 = 0 → sectionTwist i t = t) ∧ (i % 2 = 1 → sectionTwist i t = -t) := by
  constructor
  · intro h
    simp only [sectionTwist, if_pos h]
  · intro h
    simp only [sectionTwist]
    rw [if_neg (by omega)]

/-- Witness for C6: with six sections, sections 0, 2, 4 carry `+t` and
sections 1, 3, 5 carry `-t` (shown at `t = 1`). -/
theorem claim_C6_witness :
    sectionTwist 0 1 = 1 ∧ sectionTwist 1 1 = -1 ∧ sectionTwist 2 1 = 1 ∧
    sectionTwist 3 1 = -1 ∧ sectionTwist 4 1 = 1 ∧ sectionTwist 5 1 = -1 :=
  ⟨(claim_C6 0 1).1 rfl, (claim_C6 1 1).2 rfl, (claim_C6 2 1).1 rfl,
   (claim_C6 3 1).2 rfl, (claim_C6 4 1).1 rfl, (claim_C6 5 1).2 rfl⟩

/-- Claim C8: the radius-at-height function returns the base radius at `t = 0`
and the top radius at `t = 1` (exactly, in the real-number model). -/
theorem claim_C8 (a b phi : ℝ) (ha : 0 ≤ a) (hb : 0 ≤ b) :
    getStrutRadiusAtHeight 0 a b phi = a ∧ getStrutRadiusAtHeight 1 a b phi = b := by
  constructor
  · simp only [getStrutRadiusAtHeight]
    rw [show (1 - 0) * (1 - 0) * a * a + 0 * 0 * b * b +
          2 * (1 - 0) * 0 * a * b * Real.cos phi = a * a by ring,
        max_eq_right (mul_self_nonneg a), Real.sqrt_mul_self ha]
  · simp only [getStrutRadiusAtHeight]
    rw [show (1 - 1) * (1 - 1) * a * a + 1 * 1 * b * b +
          2 * (1 - 1) * 1 * a * b * Real.cos phi = b * b by ring,
        max_eq_right (mul_self_nonneg b), Real.sqrt_mul_self hb]

/-- Witness for C8 at `a = 2`, `b = 3`, `φ = 0`. -/
theorem claim_C8_witness :
    getStrutRadiusAtHeight 0 2 3 0 = 2 ∧ getStrutRadiusAtHeight 1 2 3 0 = 3 :=
  claim_C8 2 3 0 (by norm_num) (by norm_num)

/-- Claim C9: the evaluator is total on radii `≥ 0` and any real twist angle:
the strut radius is nonnegative for every `t ∈ [0,1]`, and the waist solver
always returns a nonnegative radius and a position inside `[0,1]` (in the
real-number model every output is a genuine finite real, never NaN). -/
theorem claim_C9 (a b phi : ℝ) (ha : 0 ≤ a) (hb : 0 ≤ b) :
    (∀ t : ℝ, 0 ≤ t → t ≤ 1 → 0 ≤ getStrutRadiusAtHeight t a b phi) ∧
    0 ≤ (calculateWaistGeometry a b phi).waistRadius ∧
    0 ≤ (calculateWaistGeometry a b phi).waistPosition ∧
    (calculateWaistGeometry a b phi).waistPosition ≤ 1 := by
  refine ⟨?_, ?_, ?_, ?_⟩
  · intro t _ _
    simp only [getStrutRadiusAtHeight]
    exact Real.sqrt_nonneg _
  · by_cases hd : |a * a + b * b + 2 * a * b * Real.cos phi| < 0.0001
    · simp only [calculateWaistGeometry, if_pos hd]
      linarith
    · simp only [calculateWaistGeometry, if_neg hd]
      exact Real.sqrt_nonneg _
  · by_cases hd : |a * a + b * b + 2 * a * b * Real.cos phi| < 0.0001
    · simp only [calculateWaistGeometry, if_pos hd]
      norm_num
    · simp only [calculateWaistGeometry, if_neg hd]
      exact le_max_left 0 _
  · by_cases hd : |a * a + b * b + 2 * a * b * Real.cos phi| < 0.0001
    · simp only [calculateWaistGeometry, if_pos hd]
      norm_num
    · simp only [calculateWaistGeometry, if_neg hd]
      exact max_le (by norm_num) (min_le_left 1 _)

/-- Witness for C9 at `a = 1`, `b = 2`, `φ = 0`. -/
theorem claim_C9_witness :
    (∀ t : ℝ, 0 ≤ t → t ≤ 1 → 0 ≤ getStrutRadiusAtHeight t 1 2 0) ∧
    0 ≤ (calculateWaistGeometry 1 2 0).waistRadius ∧
    0 ≤ (calculateWaistGeometry 1 2 0).waistPosition ∧
    (calculateWaistGeometry 1 2 0).waistPosition ≤ 1 :=
  claim_C9 1 2 0 (by norm_num) (by norm_num)

/-- Claim C10: the radius-at-height function is even in the twist angle, so the
`Math.abs` applied to a section's signed (alternating) twist before computing
ring radii never changes the resulting radius. -/
theorem claim_C10 (t a b phi : ℝ) :
    getStrutRadiusAtHeight t a b (-phi) = getStrutRadiusAtHeight t a b phi ∧
    getStrutRadiusAtHeight t a b |phi| = getStrutRadiusAtHeight t a b phi ∧
    ∀ i : ℕ, getStrutRadiusAtHeight t a b |sectionTwist i phi| =
      getStrutRadiusAtHeight t a b phi := by
  refine ⟨?_, ?_, ?_⟩
  · simp only [getStrutRadiusAtHeight, Real.cos_neg]
  · simp only [getStrutRadiusAtHeight, Real.cos_abs]
  · intro i
    by_cases h : i % 2 = 0
    · simp only [sectionTwist, if_pos h, getStrutRadiusAtHeight, Real.cos_abs]
    · simp only [sectionTwist, if_neg h, getStrutRadiusAtHeight, abs_neg, Real.cos_abs]

theorem totalWeightAux_eq_sum (n k : ℕ) :
    totalWeightAux n k = ∑ i ∈ Finset.range k, (n - i) := by
  induction k with
  | zero => simp [totalWeightAux]
  | succ k ih => rw [totalWeightAux, ih, Finset.sum_range_succ, sectionWeight]

theorem two_mul_totalWeight (n : ℕ) : 2 * totalWeight n = n * (n + 1) := by
  have h1 : totalWeight n = ∑ i ∈ Finset.range n, (i + 1) := by
    rw [totalWeight, totalWeightAux_eq_sum, ← Finset.sum_range_reflect (fun j => j + 1) n]
    exact Finset.sum_congr rfl (fun i hi => by
      have := Finset.mem_range.mp hi
      omega)
  have h2 : (∑ i ∈ Finset.range n, i) * 2 = n * (n - 1) := Finset.sum_range_id_mul_two n
  have h3 : totalWeight n = (∑ i ∈ Finset.range n, i) + n := by
    rw [h1, Finset.sum_add_distrib, Finset.sum_const, Finset.card_range, smul_eq_mul, mul_one]
  cases n with
  | zero => simp [totalWeight, totalWeightAux]
  | succ m =>
      rw [Nat.add_sub_cancel] at h2
      rw [h3, show 2 * ((∑ i ∈ Finset.range (m + 1), i) + (m + 1)) =
            (∑ i ∈ Finset.range (m + 1), i) * 2 + 2 * (m + 1) by ring, h2]
      ring

theorem totalWeight_pos (n : ℕ) (hn : 1 ≤ n) : 0 < totalWeight n := by
  have h := two_mul_totalWeight n
  have h2 : 1 * 2 ≤ 2 * totalWeight n := by
    rw [h]
    exact Nat.mul_le_mul hn (by omega)
  omega

theorem cumulativeHeight_eq (height : ℝ) (n k : ℕ) :
    cumulativeHeight height n k =
      (totalWeightAux n k : ℝ) / (totalWeight n : ℝ) * height := by
  induction k with
  | zero => simp [cumulativeHeight, totalWeightAux]
  | succ k ih =>
      rw [cumulativeHeight, ih, totalWeightAux]
      push_cast
      ring

theorem cumulativeHeight_last (height : ℝ) (n : ℕ) (hn : 1 ≤ n) :
    cumulativeHeight height n n = height := by
  have hW : ((totalWeight n : ℝ)) ≠ 0 :=
    Nat.cast_ne_zero.mpr (totalWeight_pos n hn).ne'
  rw [cumulativeHeight_eq]
  rw [show totalWeightAux n n = totalWeight n from rfl, div_self hW, one_mul]

/-- Claim C5: for any `height > 0` and integer `sectionCount ≥ 1`, the weighted
partitioner gives `Σweights = n(n+1)/2`, section `i` the height
`height · weight_i / Σweights` with `weight_i = n - i`, strictly increasing
boundaries running from `0` to exactly `height`, and linearly interpolated
section radii that agree at shared boundaries and run from `baseRadius` to
`topRadius`. -/
theorem claim_C5 (height : ℝ) (n : ℕ) (hh : 0 < height) (hn : 1 ≤ n) :
    totalWeight n = n * (n + 1) / 2 ∧
    (∀ i, i < n → cumulativeHeight height n (i + 1) - cumulativeHeight height n i =
      height * (sectionWeight n i : ℝ) / (totalWeight n : ℝ)) ∧
    (∀ i, i < n → cumulativeHeight height n i < cumulativeHeight height n (i + 1)) ∧
    cumulativeHeight height n 0 = 0 ∧
    cumulativeHeight height n n = height ∧
    (∀ br tr : ℝ, ∀ i, sectionTopRadius br tr height n i =
      sectionBottomRadius br tr height n (i + 1)) ∧
    (∀ br tr : ℝ, sectionBottomRadius br tr height n 0 = br ∧
      sectionTopRadius br tr height n (n - 1) = tr) := by
  have hWpos : (0 : ℝ) < (totalWeight n : ℝ) :=
    Nat.cast_pos.mpr (totalWeight_pos n hn)
  refine ⟨?_, ?_, ?_, rfl, cumulativeHeight_last height n hn, ?_, ?_⟩
  · have h := two_mul_totalWeight n
    obtain ⟨M, hM⟩ : ∃ M, n * (n + 1) = M := ⟨_, rfl⟩
    rw [hM] at h ⊢
    omega
  · intro i _
    rw [cumulativeHeight]
    ring
  · intro i hi
    have hw : (0 : ℝ) < (sectionWeight n i : ℝ) :=
      Nat.cast_pos.mpr (by unfold sectionWeight; omega)
    have hstep : (0 : ℝ) < (sectionWeight n i : ℝ) / (totalWeight n : ℝ) * height :=
      mul_pos (div_pos hw hWpos) hh
    rw [cumulativeHeight]
    linarith
  · intro br tr i
    rfl
  · intro br tr
    constructor
    · simp [sectionBottomRadius, cumulativeHeight]
    · rw [sectionTopRadius, show n - 1 + 1 = n from by omega,
          cumulativeHeight_last height n hn, div_self hh.ne']
      ring

/-- Witness for C5 at `height = 300`, `sectionCount = 6`: the boundaries are
strictly increasing and the per-section heights sum to exactly `300`. -/
theorem claim_C5_witness :
    totalWeight 6 = 6 * (6 + 1) / 2 ∧
    (∀ i, i < 6 → cumulativeHeight 300 6 (i + 1) - cumulativeHeight 300 6 i =
      300 * (sectionWeight 6 i : ℝ) / (totalWeight 6 : ℝ)) ∧
    (∀ i, i < 6 → cumulativeHeight 300 6 i < cumulativeHeight 300 6 (i + 1)) ∧
    cumulativeHeight 300 6 0 = 0 ∧
    cumulativeHeight 300 6 6 = 300 ∧
    (∀ br tr : ℝ, ∀ i, sectionTopRadius br tr 300 6 i =
      sectionBottomRadius br tr 300 6 (i + 1)) ∧
    (∀ br tr : ℝ, sectionBottomRadius br tr 300 6 0 = br ∧
      sectionTopRadius br tr 300 6 (6 - 1) = tr) :=
  claim_C5 300 6 (by norm_num) (by norm_num)

theorem sectionRingIndices_zero (rc : ℕ) :
    (sectionRingIndices 0 rc).length = rc + 1 := by
  have h : sectionRingIndices 0 rc = List.range (rc + 1) :=
    List.filter_eq_self.mpr (fun a _ => by simp)
  rw [h, List.length_range]

theorem sectionRingIndices_pos (s rc : ℕ) (hs : 0 < s) :
    (sectionRingIndices s rc).length = rc := by
  rw [sectionRingIndices, List.range_succ_eq_map,
      List.filter_cons_of_neg (by simp [hs])]
  have h : (List.map Nat.succ (List.range rc)).filter
      (fun i => !(decide (0 < s) && decide (i = 0))) =
      List.map Nat.succ (List.range rc) :=
    List.filter_eq_self.mpr (fun a ha => by
      obtain ⟨b, _, rfl⟩ := List.mem_map.mp ha
      simp)
  rw [h, List.length_map, List.length_range]

theorem towerRingIndices_length (m rc : ℕ) :
    (towerRingIndices true (m + 1) rc).length = (rc + 1) + m * rc := by
  induction m with
  | zero =>
      rw [towerRingIndices, if_pos rfl, show List.range 1 = [0] from rfl]
      simp only [List.flatMap_cons, List.flatMap_nil, List.append_nil, List.length_map]
      rw [sectionRingIndices_zero rc]
      omega
  | succ k ih =>
      rw [towerRingIndices, if_pos rfl] at ih ⊢
      rw [List.range_succ, List.flatMap_append, List.length_append, ih]
      simp only [List.flatMap_cons, List.flatMap_nil, List.append_nil, List.length_map]
      rw [sectionRingIndices_pos (k + 1) rc (by omega)]
      ring

/-- Claim C7: with rings shown, the first section emits `ringCount + 1` rings,
every later section emits exactly `ringCount` (its bottom ring `i = 0` is
suppressed), so `sectionCount` sections emit
`(ringCount + 1) + (sectionCount - 1) * ringCount` rings in total. -/
theorem claim_C7 (n rc : ℕ) (hn : 1 ≤ n) :
    (sectionRingIndices 0 rc).length = rc + 1 ∧
    (∀ s, 0 < s → (sectionRingIndices s rc).length = rc) ∧
    (towerRingIndices true n rc).length = (rc + 1) + (n - 1) * rc := by
  refine ⟨sectionRingIndices_zero rc, fun s hs => sectionRingIndices_pos s rc hs, ?_⟩
  cases n with
  | zero => omega
  | succ m =>
      rw [Nat.add_sub_cancel]
      exact towerRingIndices_length m rc

/-- Witness for C7 at `sectionCount = 2`, `ringCount = 4`: the total ring count
is `9`, not `10`. -/
theorem claim_C7_witness :
    (sectionRingIndices 0 4).length = 4 + 1 ∧
    (∀ s, 0 < s → (sectionRingIndices s 4).length = 4) ∧
    (towerRingIndices true 2 4).length = 9 := by
  have h := claim_C7 2 4 (by norm_num)
  exact ⟨h.1, h.2.1, by rw [h.2.2]⟩

theorem cos50_def : cos50 = Real.cos (50 * Real.pi / 180) := rfl

theorem tW50_def : tW50 =
    (60 * 60 + 60 * 5 * cos50) / (60 * 60 + 5 * 5 + 2 * 60 * 5 * cos50) := rfl

theorem rSq50_def : rSq50 =
    (1 - tW50) * (1 - tW50) * 60 * 60 + tW50 * tW50 * 5 * 5 +
      2 * (1 - tW50) * tW50 * 60 * 5 * cos50 := rfl

theorem half_le_cos50 : (1 / 2 : ℝ) ≤ cos50 := by
  rw [cos50_def, ← Real.cos_pi_div_three]
  exact Real.cos_le_cos_of_nonneg_of_le_pi (by positivity)
    (by linarith [Real.pi_pos]) (by linarith [Real.pi_pos])

theorem cos50_le_one : cos50 ≤ 1 := Real.cos_le_one _

theorem denom50_pos : (0 : ℝ) < 60 * 60 + 5 * 5 + 2 * 60 * 5 * cos50 := by
  have := half_le_cos50
  linarith

theorem tW50_pos : 0 < tW50 := by
  rw [tW50_def]
  exact div_pos (by linarith [half_le_cos50]) denom50_pos

theorem tW50_lt_one : tW50 < 1 := by
  rw [tW50_def]
  rw [div_lt_one denom50_pos]
  linarith [half_le_cos50]

/-- Evaluation of the waist solver at the concrete scenario `a = 60`, `b = 5`,
`φ = 50°`: the guard is not taken and the clamp is the identity. -/
theorem waistEval50 :
    calculateWaistGeometry 60 5 (50 * Real.pi / 180) =
      { waistRadius := Real.sqrt (max 0 rSq50), waistPosition := tW50 } := by
  have hguard : ¬ |60 * 60 + 5 * 5 + 2 * 60 * 5 * cos50| < 0.0001 := by
    rw [abs_of_pos denom50_pos]
    push_neg
    linarith [half_le_cos50]
  have hclamp : max 0 (min 1 tW50) = tW50 := by
    rw [min_eq_right tW50_lt_one.le, max_eq_right tW50_pos.le]
  simp only [calculateWaistGeometry]
  simp only [← cos50_def, ← tW50_def]
  rw [if_neg hguard, hclamp, ← rSq50_def]

theorem rSq50_gt_25 : (25 : ℝ) < rSq50 := by
  have h1 := half_le_cos50
  have h2 := cos50_le_one
  have hd := denom50_pos
  rw [rSq50_def, tW50_def]
  set c := cos50 with hc
  rw [show (1 - (60 * 60 + 60 * 5 * c) / (60 * 60 + 5 * 5 + 2 * 60 * 5 * c)) *
        (1 - (60 * 60 + 60 * 5 * c) / (60 * 60 + 5 * 5 + 2 * 60 * 5 * c)) * 60 * 60 +
        (60 * 60 + 60 * 5 * c) / (60 * 60 + 5 * 5 + 2 * 60 * 5 * c) *
          ((60 * 60 + 60 * 5 * c) / (60 * 60 + 5 * 5 + 2 * 60 * 5 * c)) * 5 * 5 +
        2 * (1 - (60 * 60 + 60 * 5 * c) / (60 * 60 + 5 * 5 + 2 * 60 * 5 * c)) *
          ((60 * 60 + 60 * 5 * c) / (60 * 60 + 5 * 5 + 2 * 60 * 5 * c)) * 60 * 5 * c =
      (54000000 * c ^ 3 + 978750000 * c ^ 2 + 162000000 * c + 326250000) /
        (60 * 60 + 5 * 5 + 2 * 60 * 5 * c) ^ 2 from by
    field_simp
    ring]
  rw [lt_div_iff₀ (by positivity)]
  nlinarith [sq_nonneg c, pow_nonneg (by linarith : (0:ℝ) ≤ c) 3]

theorem rSq50_lt_3600 : rSq50 < 3600 := by
  have h1 := half_le_cos50
  have h2 := cos50_le_one
  have hd := denom50_pos
  rw [rSq50_def, tW50_def]
  set c := cos50 with hc
  rw [show (1 - (60 * 60 + 60 * 5 * c) / (60 * 60 + 5 * 5 + 2 * 60 * 5 * c)) *
        (1 - (60 * 60 + 60 * 5 * c) / (60 * 60 + 5 * 5 + 2 * 60 * 5 * c)) * 60 * 60 +
        (60 * 60 + 60 * 5 * c) / (60 * 60 + 5 * 5 + 2 * 60 * 5 * c) *
          ((60 * 60 + 60 * 5 * c) / (60 * 60 + 5 * 5 + 2 * 60 * 5 * c)) * 5 * 5 +
        2 * (1 - (60 * 60 + 60 * 5 * c) / (60 * 60 + 5 * 5 + 2 * 60 * 5 * c)) *
          ((60 * 60 + 60 * 5 * c) / (60 * 60 + 5 * 5 + 2 * 60 * 5 * c)) * 60 * 5 * c =
      (54000000 * c ^ 3 + 978750000 * c ^ 2 + 162000000 * c + 326250000) /
        (60 * 60 + 5 * 5 + 2 * 60 * 5 * c) ^ 2 from by
    field_simp
    ring]
  rw [div_lt_iff₀ (by positivity)]
  nlinarith [sq_nonneg c, (pow_le_one₀ (by linarith : (0:ℝ) ≤ c) h2 : c ^ 3 ≤ 1)]

/-- The strut radius at the top sample `t = 1` for `a = 60`, `b = 5`, `φ = 50°`
is exactly the top radius `5`. -/
theorem strutRadius_top_60_5 :
    getStrutRadiusAtHeight 1 60 5 (50 * Real.pi / 180) = 5 := by
  simp only [getStrutRadiusAtHeight]
  rw [show (1 - 1) * (1 - 1) * 60 * 60 + 1 * 1 * 5 * 5 +
        2 * (1 - 1) * 1 * 60 * 5 * Real.cos (50 * Real.pi / 180) = (25 : ℝ) from by ring,
      show max (0 : ℝ) 25 = 25 from by norm_num,
      show (25 : ℝ) = 5 ^ 2 from by norm_num,
      Real.sqrt_sq (by norm_num : (0 : ℝ) ≤ 5)]

/-- Claim C2 is refuted by the code: at `a = 60`, `b = 5`, `φ = 50°` the waist
radius returned by `calculateWaistGeometry` exceeds the strut radius at the
sampled parameter `t = 100/100 = 1`, so `waistRadius ≤ r(t)` fails at that
sample.  (The `tWaist` formula in the code is not the minimiser of `r²`: its
derivation flipped the sign of the `a·b·cos φ` terms, contradicting the code's
own comment that the minimum radius occurs there.) -/
theorem claim_C2_bug :
    getStrutRadiusAtHeight 1 60 5 (50 * Real.pi / 180) <
      (calculateWaistGeometry 60 5 (50 * Real.pi / 180)).waistRadius := by
  rw [strutRadius_top_60_5, waistEval50]
  show (5 : ℝ) < Real.sqrt (max 0 rSq50)
  rw [Real.lt_sqrt (by norm_num : (0:ℝ) ≤ 5)]
  have h := rSq50_gt_25
  have : (25 : ℝ) < max 0 rSq50 := lt_of_lt_of_le h (le_max_right 0 _)
  nlinarith [this]

/-- Claim C4: at `baseRadius = 60`, `topRadius = 5`, `twistAngle = 50°` the
waist position is strictly inside `(0, 1)` and the waist radius is strictly
below `60`. -/
theorem claim_C4 :
    0 < (calculateWaistGeometry 60 5 (50 * Real.pi / 180)).waistPosition ∧
    (calculateWaistGeometry 60 5 (50 * Real.pi / 180)).waistPosition < 1 ∧
    (calculateWaistGeometry 60 5 (50 * Real.pi / 180)).waistRadius < 60 := by
  rw [waistEval50]
  refine ⟨tW50_pos, tW50_lt_one, ?_⟩
  show Real.sqrt (max 0 rSq50) < 60
  rw [Real.sqrt_lt' (by norm_num : (0:ℝ) < 60)]
  have h := rSq50_lt_3600
  have : max 0 rSq50 < 3600 := max_lt (by norm_num) h
  nlinarith [this]
